import Mathlib

/-!
Verification of the Formula 4 telemetry analytics engine
(`data-service/services/data_processor.py`).

Numeric cells are modelled as `Option Rat`: `none` stands for a pandas
NaN / missing value, `some q` for the rational value of a float cell.
All examples in the development use values whose float arithmetic is
exact, so rational arithmetic agrees with the source's float arithmetic.
-/

deriving instance DecidableEq for Except

namespace F4

/-- A numeric cell: `none` models pandas NaN / a missing value. -/
abbrev Val := Option Rat

/-- Python float `a < b`: false whenever either side is NaN. -/
def ltVal : Val → Val → Bool
  | some a, some b => decide (a < b)
  | _, _ => false

/-- Python float `a > b`: false whenever either side is NaN. -/
def gtVal : Val → Val → Bool
  | some a, some b => decide (b < a)
  | _, _ => false

/-- Pandas `Series.max()` (default `skipna=True`): the maximum of the
non-missing entries, NaN when there is none. -/
def pdMax (xs : List Val) : Val :=
  match xs.filterMap id with
  | [] => none
  | y :: ys => some (ys.foldl max y)

/-- Pandas `Series.mean()`: mean of the non-missing entries, NaN when none. -/
def pdMean (xs : List Val) : Val :=
  match xs.filterMap id with
  | [] => none
  | y :: ys => some ((y :: ys).sum / ((y :: ys).length : Rat))

/-- Python builtin `min` over a nonempty list of floats: a left fold that
keeps the current value unless the next element compares strictly smaller
(NaN never compares, so a NaN first element is sticky — exactly CPython's
behaviour). Callers in the source guard against the empty list. -/
def pyMin (xs : List Val) : Val :=
  match xs with
  | [] => none
  | y :: ys => ys.foldl (fun m x => if ltVal x m then x else m) y

/-- A data row after column normalization; each canonical numeric field is
present (`some`) or missing (`none`).  Fields of columns that are absent
from the frame entirely are ignored via the `has*` flags of `DataFrame`. -/
structure Row where
  time : Val := none
  speed : Val := none
  rpm : Val := none
  throttle : Val := none
  brake : Val := none
  g_force_x : Val := none
  g_force_y : Val := none
  lap_time : Val := none
deriving DecidableEq

/-- A pandas `DataFrame` restricted to the canonical columns the analytics
use; `has*` records whether the column exists at all (`'col' in df.columns`). -/
structure DataFrame where
  hasTime : Bool := false
  hasSpeed : Bool := false
  hasRpm : Bool := false
  hasThrottle : Bool := false
  hasBrake : Bool := false
  hasGx : Bool := false
  hasGy : Bool := false
  hasLapTime : Bool := false
  rows : List Row := []
deriving DecidableEq

/-- `df['lap_time'].notna().cumsum()` (data_processor.py:411): running count
of non-missing lap_time markers, inclusive of the current row. -/
def lapNumbersAux (acc : Nat) : List Val → List Nat
  | [] => []
  | v :: vs =>
    let acc2 := acc + (if v.isSome then 1 else 0)
    acc2 :: lapNumbersAux acc2 vs

/-- Lap number of every row, in row order. -/
def lapNumbers (lapTimes : List Val) : List Nat :=
  lapNumbersAux 0 lapTimes

/-- `models/telemetry_models.LapAnalysis`.  `max_g_force_sq` stores the square
of the source's `max_g_force`: the source maxes `sqrt(gx**2 + gy**2)` over the
group, and since `sqrt` is strictly monotone on nonnegatives, maxing the
squares selects the same row while keeping the value rational. -/
structure LapAnalysis where
  lap_number : Nat
  lap_time : Val
  max_speed : Rat
  avg_speed : Rat
  max_g_force_sq : Rat
  is_fastest : Bool
deriving DecidableEq

/-- `df[df['lap_number'] == lap_num]` (line 420): the rows whose running
marker count equals `n`. -/
def lapGroup (df : DataFrame) (n : Nat) : List Row :=
  ((lapNumbers (df.rows.map (·.lap_time))).zip df.rows).filterMap
    (fun p => if p.1 = n then some p.2 else none)

/-- Elementwise `gx**2 + gy**2` (NaN-propagating pandas arithmetic);
the square of the source's combined G-force for one row. -/
def combinedGSq (r : Row) : Val :=
  match r.g_force_x, r.g_force_y with
  | some x, some y => some (x * x + y * y)
  | _, _ => none

/-- `lap_time > 0 and lap_time < fastest_lap_time` (line 438), where
`fastest_lap_time` starts at `float('inf')`, modelled as `none`. -/
def beatsFastest (lt fastest : Val) : Bool :=
  match lt with
  | some t => decide (0 < t) && (match fastest with
      | none => true
      | some f => decide (t < f))
  | none => false

/-- The `for lap_num in df['lap_number'].unique()` loop body of
`_analyze_laps` (lines 416-450), folded over the list of lap numbers.
State: (laps built so far, fastest lap time so far, fastest lap number). -/
def analyzeLapsLoop (df : DataFrame) :
    List Nat → List LapAnalysis × Val × Nat → List LapAnalysis × Val × Nat
  | [], st => st
  | n :: ns, (acc, fastest, fnum) =>
    let g := lapGroup df n
    if g.isEmpty then
      analyzeLapsLoop df ns (acc, fastest, fnum)
    else
      let lt : Val := if df.hasLapTime then (g.map (·.lap_time)).getLastD none else some 0
      let isf := beatsFastest lt fastest
      let lap : LapAnalysis :=
        { lap_number := n
          lap_time := lt
          max_speed := if df.hasSpeed then (pdMax (g.map (·.speed))).getD 0 else 0
          avg_speed := if df.hasSpeed then (pdMean (g.map (·.speed))).getD 0 else 0
          max_g_force_sq := if df.hasGx && df.hasGy then (pdMax (g.map combinedGSq)).getD 0 else 0
          is_fastest := isf }
      analyzeLapsLoop df ns
        (acc ++ [lap], if isf then lt else fastest, if isf then n else fnum)

/-- `_analyze_laps` (data_processor.py:403-457).  The `unique()` of the
nondecreasing running count on the row sequence is `0, 1, …, k` where `k` is
the number of marker rows (0 occurring only before the first marker), and the
loop `continue`s on 0, so the iteration is over `1..k`.  After the loop, the
lap whose number equals the recorded fastest lap number gets
`is_fastest := true` (lines 452-455); flags set inside the loop are *not*
reset. -/
def analyzeLaps (df : DataFrame) : List LapAnalysis :=
  if df.hasLapTime = false then []
  else if (df.rows.map (·.lap_time)).all (·.isNone) then []
  else
    let k := (df.rows.map (·.lap_time)).countP (·.isSome)
    let res := analyzeLapsLoop df (List.range' 1 k) ([], none, 0)
    res.1.map (fun lap =>
      if lap.lap_number = res.2.2 then { lap with is_fastest := true } else lap)

/-- Session whose two laps have strictly decreasing lap times 100, 90. -/
def dfC1 : DataFrame :=
  { hasLapTime := true
    rows := [{ lap_time := some 100 }, { lap_time := some 90 }] }

/-- Ten rows with lap-completion markers exactly at 0-based indices 2, 5, 9. -/
def rowsC2 : List Row :=
  [{}, {}, { lap_time := some 61 }, {}, {},
   { lap_time := some 62 }, {}, {}, {}, { lap_time := some 63 }]

def dfC2 : DataFrame := { hasLapTime := true, rows := rowsC2 }

/-- 0-based indices of the rows carrying lap number `n`. -/
def coveredRows (df : DataFrame) (n : Nat) : List Nat :=
  ((lapNumbers (df.rows.map (·.lap_time))).zip (List.range df.rows.length)).filterMap
    (fun p => if p.1 = n then some p.2 else none)

example : lapNumbers (rowsC2.map (·.lap_time)) = [0, 0, 1, 1, 1, 2, 2, 2, 2, 3] := by decide

example : coveredRows dfC2 1 = [2, 3, 4] := by decide

example : ((analyzeLaps dfC1).filter (·.is_fastest)).length = 2 := by decide

example : (analyzeLaps dfC2).map (·.lap_number) = [1, 2, 3] := by decide

example : (analyzeLaps dfC2).map (·.lap_time) = [none, none, some 63] := by decide

/-- Python `int(x)` on a finite float: truncation toward zero. -/
def ratTrunc (x : Rat) : Int :=
  if x < 0 then -((-x).floor) else x.floor

/-- Pandas `Series.quantile(q)` with the default linear interpolation, over
the non-missing entries in sorted order (NaN when there is none). -/
def pdQuantile (xs : List Val) (q : Rat) : Val :=
  let vs := (xs.filterMap id).insertionSort (· ≤ ·)
  match vs with
  | [] => none
  | _ :: _ =>
    let n := vs.length
    let h : Rat := q * ((n : Rat) - 1)
    let i : Nat := h.floor.toNat
    let frac : Rat := h - (i : Rat)
    some (vs.getD i 0 + frac * (vs.getD (i + 1) 0 - vs.getD i 0))

/-- `models/telemetry_models.PerformanceMetrics`, with `max_g_force_sq`
storing the square of the source's `max_g_force` (see `LapAnalysis`). -/
structure PerformanceMetrics where
  fastest_lap : Rat
  average_lap : Rat
  max_speed : Rat
  avg_speed : Rat
  max_rpm : Int
  avg_rpm : Rat
  max_g_force_sq : Rat
  braking_points : Nat
  acceleration_zones : Nat
deriving DecidableEq

/-- The `[lap.lap_time for lap in lap_analysis if lap.lap_time > 0]`
comprehension of line 463 (NaN compares false, hence is excluded). -/
def posLapTimes (laps : List LapAnalysis) : List Rat :=
  laps.filterMap (fun l =>
    match l.lap_time with
    | some t => if 0 < t then some t else none
    | none => none)

/-- `int(df['rpm'].max()) if 'rpm' in df.columns else 0` (line 472): the
`Except` error is exactly where the source raises — `int(nan)` on an rpm
column whose entries are all missing is a Python `ValueError`. -/
def maxRpmOf (df : DataFrame) : Except String Int :=
  if df.hasRpm then
    match pdMax (df.rows.map (·.rpm)) with
    | some m => Except.ok (ratTrunc m)
    | none => Except.error "cannot convert float NaN to integer"
  else Except.ok 0

/-- `_calculate_performance_metrics` (data_processor.py:459-503). -/
def calcPerf (df : DataFrame) (laps : List LapAnalysis) :
    Except String PerformanceMetrics :=
  let lapTimes := posLapTimes laps
  let fastest : Rat := match lapTimes with | [] => 0 | y :: ys => ys.foldl min y
  let average : Rat :=
    match lapTimes with
    | [] => 0
    | _ :: _ => lapTimes.sum / (lapTimes.length : Rat)
  match maxRpmOf df with
  | Except.error e => Except.error e
  | Except.ok maxRpm =>
    let brakeVals := df.rows.map (·.brake)
    let throttleVals := df.rows.map (·.throttle)
    let zones : Nat × Nat :=
      if df.hasThrottle && df.hasBrake then
        let bThr : Rat :=
          if brakeVals.any (·.isSome) then (pdQuantile brakeVals (7 / 10)).getD 0 else 0
        let tThr : Rat :=
          if throttleVals.any (·.isSome) then (pdQuantile throttleVals (7 / 10)).getD 0 else 0
        (brakeVals.countP (fun v => gtVal v (some bThr)),
         throttleVals.countP (fun v => gtVal v (some tThr)))
      else (0, 0)
    Except.ok
      { fastest_lap := fastest
        average_lap := average
        max_speed := if df.hasSpeed then (pdMax (df.rows.map (·.speed))).getD 0 else 0
        avg_speed := if df.hasSpeed then (pdMean (df.rows.map (·.speed))).getD 0 else 0
        max_rpm := maxRpm
        avg_rpm := if df.hasRpm then (pdMean (df.rows.map (·.rpm))).getD 0 else 0
        max_g_force_sq :=
          if df.hasGx && df.hasGy then (pdMax (df.rows.map combinedGSq)).getD 0 else 0
        braking_points := zones.1
        acceleration_zones := zones.2 }

/-- One already-processed session as consumed by `compare_sessions`:
`session['filename']`, `session['data']['lap_analysis']`, and
`session['data']['performance_metrics']['max_speed']` (the latter is never
NaN, the source guards the construction with `pd.isna`). -/
structure SessionData where
  filename : String
  lap_analysis : List LapAnalysis
  max_speed : Rat
deriving DecidableEq

/-- Python dict assignment `d[k] = v` on an insertion-ordered dict:
replace the value in place when the key exists, else append. -/
def dictInsert {α : Type} (d : List (String × α)) (k : String) (v : α) :
    List (String × α) :=
  if d.any (fun p => p.1 == k) then d.map (fun p => if p.1 == k then (k, v) else p)
  else d ++ [(k, v)]

/-- Python dict read `d[k]` (callers only read existing keys). -/
def dGet {α : Type} [Inhabited α] (d : List (String × α)) (k : String) : α :=
  match d.find? (fun p => p.1 == k) with
  | some p => p.2
  | none => default

/-- Lines 134-140: per-session fastest lap as `min` over *all* laps
(not only positive ones), recorded only for sessions whose lap list is
non-empty (`if lap_analysis:` truthiness). -/
def lapTimesDict (sessions : List SessionData) : List (String × Val) :=
  sessions.foldl (fun d s =>
    if s.lap_analysis.isEmpty then d
    else dictInsert d s.filename (pyMin (s.lap_analysis.map (·.lap_time)))) []

/-- Lines 156-160: `speed_metrics[filename] = perf_metrics['max_speed']`,
recorded unconditionally for every session. -/
def speedDict (sessions : List SessionData) : List (String × Val) :=
  sessions.foldl (fun d s => dictInsert d s.filename (some s.max_speed)) []

/-- The fold computing Python's `min(d.keys(), key=lambda x: d[x])` (CPython
keeps the first element whose key value no later value strictly beats);
returns the full winning pair. -/
def pyMinPair (p : String × Val) (ps : List (String × Val)) : String × Val :=
  ps.foldl (fun m q => if ltVal q.2 m.2 then q else m) p

/-- The fold computing `max(d.keys(), key=lambda x: d[x])`. -/
def pyMaxPair (p : String × Val) (ps : List (String × Val)) : String × Val :=
  ps.foldl (fun m q => if gtVal q.2 m.2 then q else m) p

/-- `min(d.keys(), key=lambda x: d[x])` (callers guard the empty dict). -/
def minKeyByVal : List (String × Val) → String
  | [] => ""
  | p :: ps => (pyMinPair p ps).1

/-- `max(d.keys(), key=lambda x: d[x])`. -/
def maxKeyByVal : List (String × Val) → String
  | [] => ""
  | p :: ps => (pyMaxPair p ps).1

/-- Python float subtraction; NaN propagates. -/
def pySub : Val → Val → Val
  | some a, some b => some (a - b)
  | _, _ => none

/-- Python float multiplication by a constant; NaN propagates. -/
def pyMulC (v : Val) (c : Rat) : Val :=
  match v with
  | some a => some (a * c)
  | none => none

/-- Python float division: ZeroDivisionError on a zero divisor (even when
the numerator is NaN); otherwise NaN propagates. -/
def pyDiv (a b : Val) : Except String Val :=
  match b with
  | some bv =>
    if bv = 0 then Except.error "float division by zero"
    else
      match a with
      | some av => Except.ok (some (av / bv))
      | none => Except.ok none
  | none => Except.ok none

/-- `models/telemetry_models.ComparisonMetrics`; `session_values` keeps the
dict's insertion order. -/
structure ComparisonMetrics where
  parameter : String
  session_values : List (String × Val)
  best_performance : String
  worst_performance : String
  improvement_potential : Val
deriving DecidableEq

/-- The fields of `compare_sessions`' return dict that carry logic
(`comparison_charts` and timing are pure data reshaping and are omitted;
the recommendation strings elide the interpolated percentage). -/
structure CompareOutput where
  session_names : List String
  comparison_metrics : List ComparisonMetrics
  fastest_overall : String
  recommendations : List String
deriving DecidableEq

/-- `_generate_comparison_recommendations` (lines 594-608); the
`:.1f`-formatted percentage inside each template string is elided. -/
def comparisonRecommendations (metrics : List ComparisonMetrics) : List String :=
  let recs := metrics.foldl (fun acc m =>
    let acc1 :=
      if m.parameter == "Fastest Lap Time" && gtVal m.improvement_potential (some 1) then
        acc ++ ["Lap time can be improved - analyze " ++ m.best_performance ++ " session"]
      else acc
    if m.parameter == "Maximum Speed" && gtVal m.improvement_potential (some 5) then
      acc1 ++ ["Top speed can be increased - check setup and driving line"]
    else acc1) []
  if recs.isEmpty then
    ["Performance is consistent across sessions - focus on fine-tuning"]
  else recs

/-- Lines 142-153: the "Fastest Lap Time" metric block — appended only when
`lap_times` is non-empty; best = key of minimum value, worst = key of maximum
value, improvement = (worst − best) / worst × 100 (raising on a zero worst). -/
def lapMetricE (lapTimes : List (String × Val)) :
    Except String (List ComparisonMetrics) :=
  if lapTimes.isEmpty then Except.ok []
  else
    match pyDiv (pySub (dGet lapTimes (maxKeyByVal lapTimes))
                       (dGet lapTimes (minKeyByVal lapTimes)))
                (dGet lapTimes (maxKeyByVal lapTimes)) with
    | Except.error e => Except.error e
    | Except.ok imp =>
      Except.ok [{ parameter := "Fastest Lap Time"
                   session_values := lapTimes
                   best_performance := minKeyByVal lapTimes
                   worst_performance := maxKeyByVal lapTimes
                   improvement_potential := pyMulC imp 100 }]

/-- Lines 162-173: the "Maximum Speed" metric block — best = key of maximum
value, worst = key of minimum value, improvement = (best − worst) / worst ×
100 (raising on a zero worst, i.e. a zero minimum max-speed). -/
def speedMetricE (speeds : List (String × Val)) :
    Except String (List ComparisonMetrics) :=
  if speeds.isEmpty then Except.ok []
  else
    match pyDiv (pySub (dGet speeds (maxKeyByVal speeds))
                       (dGet speeds (minKeyByVal speeds)))
                (dGet speeds (minKeyByVal speeds)) with
    | Except.error e => Except.error e
    | Except.ok imp =>
      Except.ok [{ parameter := "Maximum Speed"
                   session_values := speeds
                   best_performance := maxKeyByVal speeds
                   worst_performance := minKeyByVal speeds
                   improvement_potential := pyMulC imp 100 }]

/-- Line 186: `lap_times and min(lap_times.keys(), key=...) or "Unknown"` —
the `and`/`or` idiom falls through to `"Unknown"` on an empty dict *or* an
empty winning filename (both are falsy). -/
def fastestOverallOf (lapTimes : List (String × Val)) : String :=
  if lapTimes.isEmpty then "Unknown"
  else if minKeyByVal lapTimes == "" then "Unknown"
  else minKeyByVal lapTimes

/-- `compare_sessions` (data_processor.py:125-194).  `Except.error` models
the uncaught `ZeroDivisionError` paths (re-raised by the handler at
lines 192-194); `comparison_charts` and timing are pure data reshaping and
are omitted. -/
def compareSessions (sessions : List SessionData) : Except String CompareOutput :=
  match lapMetricE (lapTimesDict sessions) with
  | Except.error e => Except.error e
  | Except.ok m1 =>
    match speedMetricE (speedDict sessions) with
    | Except.error e => Except.error e
    | Except.ok m2 =>
      Except.ok { session_names := sessions.map (·.filename)
                  comparison_metrics := m1 ++ m2
                  fastest_overall := fastestOverallOf (lapTimesDict sessions)
                  recommendations := comparisonRecommendations (m1 ++ m2) }

/-- The accepted spellings of the `time` column (`parameter_aliases['time']`,
line 36); also used directly by the validator. -/
def timeAliases : List String := ["Time", "time", "TIME", "Timestamp", "timestamp"]

/-- `self.parameter_aliases` (data_processor.py:35-51), in source order. -/
def parameterAliases : List (String × List String) :=
  [("time", timeAliases),
   ("speed", ["Speed", "speed", "SPEED", "Vehicle Speed", "Velocity"]),
   ("rpm", ["RPM", "rpm", "Engine RPM", "Engine Speed"]),
   ("throttle", ["Throttle", "throttle", "TPS", "Throttle Position"]),
   ("brake", ["Brake", "brake", "Brake Pressure", "Brake Force"]),
   ("steering", ["Steering", "steering", "Steering Angle", "Steer"]),
   ("gear", ["Gear", "gear", "Current Gear", "Gear Position"]),
   ("latitude", ["Latitude", "latitude", "LAT", "GPS Latitude"]),
   ("longitude", ["Longitude", "longitude", "LON", "GPS Longitude"]),
   ("g_force_x", ["G-Force X", "G Force X", "Lateral G", "Ay"]),
   ("g_force_y", ["G-Force Y", "G Force Y", "Longitudinal G", "Ax"]),
   ("g_force_z", ["G-Force Z", "G Force Z", "Vertical G", "Az"]),
   ("lap_time", ["Lap Time", "Lap", "Current Lap Time"]),
   ("sector_time", ["Sector Time", "Sector", "Current Sector"]),
   ("distance", ["Distance", "distance", "Track Distance"])]

/-- `_find_column_by_aliases` (lines 336-341): the first column whose header
string is literally contained in the alias list. -/
def findColumnByAliases (columns aliases : List String) : Option String :=
  columns.find? (fun c => aliases.contains c)

/-- The `column_mapping` dict built by `_normalize_column_names`
(lines 326-331), keyed by source column name. -/
def columnMapping (columns : List String) : List (String × String) :=
  parameterAliases.foldl (fun m p =>
    match findColumnByAliases columns p.2 with
    | some c => dictInsert m c p.1
    | none => m) []

/-- `df.rename(columns=column_mapping)` applied to a single header. -/
def renameHeader (m : List (String × String)) (h : String) : String :=
  match m.find? (fun p => p.1 == h) with
  | some p => p.2
  | none => h

/-- `_normalize_column_names` (lines 324-334) restricted to the header row. -/
def normalizeColumnNames (columns : List String) : List String :=
  columns.map (renameHeader (columnMapping columns))

example : normalizeColumnNames ["lat", "Speed", "Track Distance", "Foo"] =
    ["lat", "speed", "distance", "Foo"] := by decide

/-- A decoded but not yet normalized table: the header row and the raw
cells (`none` = empty cell parsed as NaN), row-major, each row indexed
like `headers`. -/
structure RawTable where
  headers : List String
  rows : List (List (Option String))
deriving DecidableEq

/-- `models/telemetry_models.ValidationIssue` (the `row` field is never set
by `validate_csv_file` and is omitted); messages elide `f`-string
interpolations. -/
structure ValidationIssue where
  severity : String
  message : String
  column : Option String
  suggestion : String
deriving DecidableEq

/-- The logic-carrying fields of `validate_csv_file`'s return dict. -/
structure ValidationResult where
  is_valid : Bool
  row_count : Nat
  column_count : Nat
  missing_columns : List String
  issues : List ValidationIssue
  estimated_quality : String
deriving DecidableEq

/-- `df.empty`: either axis has length zero. -/
def tableEmpty (t : RawTable) : Bool :=
  t.rows.isEmpty || t.headers.isEmpty

/-- The values of column number `i`, in row order. -/
def colValues (t : RawTable) (i : Nat) : List (Option String) :=
  t.rows.map (fun r => r.getD i none)

/-- Lines 206-211: the basic-structure check (`if df.empty`). -/
def emptyIssues (t : RawTable) : List ValidationIssue :=
  if tableEmpty t then
    [{ severity := "error"
       message := "File is empty or contains no data"
       column := none
       suggestion := "Ensure the CSV file contains telemetry data" }]
  else []

/-- Lines 218-225: the required time-column check. -/
def timeIssues (t : RawTable) : List ValidationIssue :=
  match findColumnByAliases t.headers timeAliases with
  | none =>
    [{ severity := "error"
       message := "No time column found"
       column := none
       suggestion := "Ensure the CSV contains a time/timestamp column" }]
  | some _ => []

/-- Lines 229-238: per-column missing-value percentages, warning above 50%
(guarded by `if not df.empty`). -/
def missingWarnings (t : RawTable) : List ValidationIssue :=
  if tableEmpty t then []
  else
    (t.headers.zip (List.range t.headers.length)).filterMap (fun p =>
      let cnt := (colValues t p.2).countP (·.isNone)
      if ((cnt : Rat) * 100) / (t.rows.length : Rat) > 50 then
        some { severity := "warning"
               message := "Column has more than 50 percent missing values"
               column := some p.1
               suggestion := "Consider data cleaning or interpolation" }
      else none)

/-- Lines 240-247: duplicate values in the detected time column
(guarded by `if not df.empty`). -/
def dupIssues (t : RawTable) : List ValidationIssue :=
  if tableEmpty t then []
  else
    match findColumnByAliases t.headers timeAliases with
    | some tc =>
      let i := (t.headers.findIdx? (· == tc)).getD 0
      if (colValues t i).Nodup then []
      else
        [{ severity := "warning"
           message := "Duplicate timestamps found"
           column := some tc
           suggestion := "Remove or average duplicate entries" }]
    | none => []

/-- All issues collected by `validate_csv_file`, in source order. -/
def csvIssues (t : RawTable) : List ValidationIssue :=
  emptyIssues t ++ timeIssues t ++ missingWarnings t ++ dupIssues t

/-- Number of error-severity issues (line 250). -/
def errorCount (issues : List ValidationIssue) : Nat :=
  issues.countP (fun i => i.severity == "error")

/-- Number of warning-severity issues (line 251). -/
def warningCount (issues : List ValidationIssue) : Nat :=
  issues.countP (fun i => i.severity == "warning")

/-- Lines 253-260: the quality label decision ladder. -/
def qualityOf (issues : List ValidationIssue) : String :=
  if 0 < errorCount issues then "Poor - Contains critical errors"
  else if 3 < warningCount issues then "Fair - Multiple warnings present"
  else if 0 < warningCount issues then "Good - Minor issues detected"
  else "Excellent - No issues found"

/-- `validate_csv_file` (data_processor.py:196-298) on a successfully
decoded table (the `except` branch at 282-298 concerns decoder failures,
which cannot occur once a table exists). -/
def validateCsv (t : RawTable) : ValidationResult :=
  { is_valid := errorCount (csvIssues t) == 0
    row_count := t.rows.length
    column_count := t.headers.length
    missing_columns :=
      if (findColumnByAliases t.headers timeAliases).isNone then ["Time"] else []
    issues := csvIssues t
    estimated_quality := qualityOf (csvIssues t) }

/-- A header-only table: 0 rows. -/
def tEmptyC9 : RawTable := { headers := ["Time"], rows := [] }

/-- A clean two-row table: time column present, one missing Speed cell
(50%, not above the 50% threshold), distinct timestamps. -/
def tGoodC9 : RawTable :=
  { headers := ["Time", "Speed"]
    rows := [[some "1", some "10"], [some "2", none]] }

example : (validateCsv tEmptyC9).estimated_quality =
    "Poor - Contains critical errors" := by decide

example : (validateCsv tGoodC9).estimated_quality =
    "Excellent - No issues found" := by with_unfolding_all decide

/-- A lap record carrying only a lap time (the comparator reads nothing else). -/
def mkLap (n : Nat) (t : Val) : LapAnalysis :=
  { lap_number := n, lap_time := t, max_speed := 0, avg_speed := 0
    max_g_force_sq := 0, is_fastest := false }

/-- Two sessions with no lap data whose recorded maximum speeds are both 0
(the value `compare_sessions` receives when a session has no speed column). -/
def sessAllZeroSpeed : List SessionData :=
  [{ filename := "s1", lap_analysis := [], max_speed := 0 },
   { filename := "s2", lap_analysis := [], max_speed := 0 }]

/-- Two sessions whose laps all have the sentinel lap time 0.0. -/
def sessZeroLap : List SessionData :=
  [{ filename := "s3", lap_analysis := [mkLap 1 (some 0)], max_speed := 50 },
   { filename := "s4", lap_analysis := [mkLap 1 (some 0)], max_speed := 60 }]

example : compareSessions sessAllZeroSpeed = Except.error "float division by zero" := by
  with_unfolding_all decide

example : compareSessions sessZeroLap = Except.error "float division by zero" := by
  with_unfolding_all decide

/-- No session has lap data; one session has no speed data (max_speed 0). -/
def sessNoLapZeroSpeed : List SessionData :=
  [{ filename := "p", lap_analysis := [], max_speed := 0 },
   { filename := "q", lap_analysis := [], max_speed := 5 }]

example : compareSessions sessNoLapZeroSpeed = Except.error "float division by zero" := by
  with_unfolding_all decide

/-- Two sessions with fastest laps 90.0s and 100.0s. -/
def sessC4 : List SessionData :=
  [{ filename := "A", lap_analysis := [mkLap 1 (some 90)], max_speed := 120 },
   { filename := "B", lap_analysis := [mkLap 1 (some 100)], max_speed := 110 }]

example :
    compareSessions sessC4 = Except.ok
      { session_names := ["A", "B"]
        comparison_metrics :=
          [{ parameter := "Fastest Lap Time"
             session_values := [("A", some 90), ("B", some 100)]
             best_performance := "A"
             worst_performance := "B"
             improvement_potential := some 10 },
           { parameter := "Maximum Speed"
             session_values := [("A", some 120), ("B", some 110)]
             best_performance := "A"
             worst_performance := "B"
             improvement_potential := some (100 / 11) }]
        fastest_overall := "A"
        recommendations :=
          ["Lap time can be improved - analyze A session",
           "Top speed can be increased - check setup and driving line"] } := by
  with_unfolding_all decide

/-- C6 witness input: no session has lap data, both speeds positive. -/
def sessNoLapPosSpeed : List SessionData :=
  [{ filename := "p2", lap_analysis := [], max_speed := 50 },
   { filename := "q2", lap_analysis := [], max_speed := 60 }]

/-- The output `compare_sessions` produces on `sessNoLapPosSpeed`. -/
def outC6 : CompareOutput :=
  { session_names := ["p2", "q2"]
    comparison_metrics :=
      [{ parameter := "Maximum Speed"
         session_values := [("p2", some 50), ("q2", some 60)]
         best_performance := "q2"
         worst_performance := "p2"
         improvement_potential := some 20 }]
    fastest_overall := "Unknown"
    recommendations := ["Top speed can be increased - check setup and driving line"] }

example : compareSessions sessNoLapPosSpeed = Except.ok outC6 := by
  with_unfolding_all decide

/-- The "Fastest Lap Time" metric `compare_sessions` produces on `sessC4`. -/
def fltC4 : ComparisonMetrics :=
  { parameter := "Fastest Lap Time"
    session_values := [("A", some 90), ("B", some 100)]
    best_performance := "A"
    worst_performance := "B"
    improvement_potential := some 10 }

/-- The full output `compare_sessions` produces on `sessC4`. -/
def outC4 : CompareOutput :=
  { session_names := ["A", "B"]
    comparison_metrics :=
      [fltC4,
       { parameter := "Maximum Speed"
         session_values := [("A", some 120), ("B", some 110)]
         best_performance := "A"
         worst_performance := "B"
         improvement_potential := some (100 / 11) }]
    fastest_overall := "A"
    recommendations :=
      ["Lap time can be improved - analyze A session",
       "Top speed can be increased - check setup and driving line"] }

example : compareSessions sessC4 = Except.ok outC4 := by
  with_unfolding_all decide

/-- C5 witness: on the concrete lap list with lap times 100 and 90 the
metrics are fastest 90 and average 95. -/
def lapsC5 : List LapAnalysis := [mkLap 1 (some 100), mkLap 2 (some 90)]

def pmC5 : PerformanceMetrics :=
  { fastest_lap := 90, average_lap := 95, max_speed := 0, avg_speed := 0
    max_rpm := 0, avg_rpm := 0, max_g_force_sq := 0
    braking_points := 0, acceleration_zones := 0 }

/-- C10 witness: a table with only a brake column reports 0 braking points
and 0 acceleration zones. -/
def dfBrakeOnly : DataFrame :=
  { hasBrake := true, rows := [{ brake := some 5 }, { brake := some 1 }] }

def pmBrakeOnly : PerformanceMetrics :=
  { fastest_lap := 0, average_lap := 0, max_speed := 0, avg_speed := 0
    max_rpm := 0, avg_rpm := 0, max_g_force_sq := 0
    braking_points := 0, acceleration_zones := 0 }

/-- The contents of each alias entry, as recorded in the rename mapping. -/
def aliasEntry (columns : List String) (p : String × List String) :
    Option (String × String) :=
  (findColumnByAliases columns p.2).map (fun c => (c, p.1))

/-! ## Helper lemmas -/

theorem lapNumbersAux_eq (lts : List Val) :
    ∀ acc, lapNumbersAux acc lts =
      (List.range lts.length).map (fun i => acc + (lts.take (i + 1)).countP (·.isSome)) := by
  induction lts with
  | nil => intro acc; simp [lapNumbersAux]
  | cons v vs ih =>
    intro acc
    simp only [lapNumbersAux, List.length_cons, List.range_succ_eq_map, List.map_cons,
      List.map_map, List.take_succ_cons, List.countP_cons]
    refine List.cons_eq_cons.mpr ⟨by simp [Nat.add_comm], ?_⟩
    rw [ih]
    refine List.map_congr_left (fun i _ => ?_)
    simp [Function.comp, List.take_succ_cons, List.countP_cons]
    omega

theorem lapNumbers_running_count (lts : List Val) :
    lapNumbers lts =
      (List.range lts.length).map (fun i => (lts.take (i + 1)).countP (·.isSome)) := by
  rw [lapNumbers, lapNumbersAux_eq]
  exact List.map_congr_left (fun i _ => Nat.zero_add _)

theorem mem_analyzeLapsLoop (df : DataFrame) :
    ∀ (ns : List Nat) (st : List LapAnalysis × Val × Nat) (l : LapAnalysis),
      l ∈ (analyzeLapsLoop df ns st).1 → l ∈ st.1 ∨ l.lap_number ∈ ns := by
  intro ns
  induction ns with
  | nil => intro st l h; exact Or.inl h
  | cons n ns ih =>
    intro st l h
    obtain ⟨acc, fastest, fnum⟩ := st
    simp only [analyzeLapsLoop] at h
    by_cases hg : (lapGroup df n).isEmpty
    · rw [if_pos hg] at h
      rcases ih _ _ h with h1 | h1
      · exact Or.inl h1
      · exact Or.inr (List.mem_cons_of_mem _ h1)
    · rw [if_neg hg] at h
      rcases ih _ _ h with h1 | h1
      · rcases List.mem_append.mp h1 with h2 | h2
        · exact Or.inl h2
        · refine Or.inr ?_
          rcases List.mem_singleton.mp h2 with rfl
          exact List.mem_cons_self _ _
      · exact Or.inr (List.mem_cons_of_mem _ h1)

theorem analyzeLaps_lap_number_pos (df : DataFrame) :
    ∀ l ∈ analyzeLaps df, 1 ≤ l.lap_number := by
  intro l hl
  unfold analyzeLaps at hl
  by_cases h1 : df.hasLapTime = false
  · rw [if_pos h1] at hl; cases hl
  · rw [if_neg h1] at hl
    by_cases h2 : (df.rows.map (·.lap_time)).all (·.isNone)
    · rw [if_pos h2] at hl; cases hl
    · rw [if_neg h2] at hl
      simp only [List.mem_map] at hl
      obtain ⟨l0, hl0, rfl⟩ := hl
      have hmem := mem_analyzeLapsLoop df _ _ _ hl0
      have : l0.lap_number ∈
          List.range' 1 ((df.rows.map (·.lap_time)).countP (·.isSome)) := by
        rcases hmem with h | h
        · cases h
        · exact h
      have hb := (List.mem_range'_1.mp this).1
      split <;> simpa using hb

/-! ## Claim theorems -/

/-- C1: evidence that the claim's invariant fails on the code.  On the
session `dfC1` — two laps with positive lap times 100 then 90 — `_analyze_laps`
returns a list in which *two* laps carry `is_fastest = true`, not exactly one:
the provisional flag set on lap 1 inside the loop is never reset when lap 2
beats it, and the final pass only adds the flag to the true fastest lap. -/
theorem analyzeLaps_two_fastest_flags :
    ((analyzeLaps dfC1).filter (·.is_fastest)).length = 2 ∧
    (analyzeLaps dfC1).map (fun l => (l.lap_number, l.lap_time, l.is_fastest)) =
      [(1, some 100, true), (2, some 90, true)] ∧
    ((analyzeLaps dfC1).filter (fun l => decide (0 < l.lap_time.getD 0))).length = 2 := by
  with_unfolding_all decide

/-- C2 counterexample: on the ten-row input `dfC2` whose `lap_time` is
non-missing exactly at 0-based indices {2, 5, 9}, the rows carrying lap
number 1 are [2, 3, 4] — not [0, 1, 2] as the claim states (the running count
is inclusive, so a marker row *starts* its group and rows 0-1 carry lap
number 0 and are discarded). -/
theorem lapCover_counterexample :
    coveredRows dfC2 1 = [2, 3, 4] ∧ coveredRows dfC2 1 ≠ [0, 1, 2] := by
  with_unfolding_all decide

/-- C2 amended: each row's `lap_number` is the running count of rows with
non-missing `lap_time` up to and including itself; rows with lap number 0 are
discarded and every produced lap has a positive lap number; on the input with
markers exactly at indices {2, 5, 9}, exactly 3 laps numbered 1 to 3 are
produced, covering rows [2..4], [5..8] and [9..9] respectively, each lap's
`lap_time` taken from the last row of its group (rows 4, 8 and 9 — hence
missing for every group not ending in a marker). -/
theorem lapSegmentation_amended :
    (∀ lts : List Val, lapNumbers lts =
      (List.range lts.length).map (fun i => (lts.take (i + 1)).countP (·.isSome))) ∧
    (∀ df : DataFrame, ∀ l ∈ analyzeLaps df, 1 ≤ l.lap_number) ∧
    ((analyzeLaps dfC2).map (·.lap_number) = [1, 2, 3] ∧
     coveredRows dfC2 1 = [2, 3, 4] ∧
     coveredRows dfC2 2 = [5, 6, 7, 8] ∧
     coveredRows dfC2 3 = [9] ∧
     (analyzeLaps dfC2).map (·.lap_time) =
       [4, 8, 9].map (fun i => (rowsC2.getD i {}).lap_time)) :=
  ⟨lapNumbers_running_count, analyzeLaps_lap_number_pos, by with_unfolding_all decide⟩

/-- C2 witness: the general conjuncts of `lapSegmentation_amended`
instantiated on the concrete ten-row input. -/
theorem lapSegmentation_amended_witness :
    (lapNumbers (rowsC2.map (·.lap_time)) =
      (List.range (rowsC2.map (·.lap_time)).length).map
        (fun i => ((rowsC2.map (·.lap_time)).take (i + 1)).countP (·.isSome))) ∧
    1 ≤ ((analyzeLaps dfC2).getD 0 (mkLap 0 none)).lap_number :=
  ⟨lapSegmentation_amended.1 (rowsC2.map (·.lap_time)),
   lapSegmentation_amended.2.1 dfC2 ((analyzeLaps dfC2).getD 0 (mkLap 0 none))
     (by with_unfolding_all decide)⟩

theorem foldl_min_mem (ys : List Rat) : ∀ y : Rat, ys.foldl min y ∈ y :: ys := by
  induction ys with
  | nil => intro y; simp
  | cons z zs ih =>
    intro y
    simp only [List.foldl_cons]
    rcases List.mem_cons.mp (ih (min y z)) with h | h
    · rcases min_choice y z with hm | hm <;> rw [h, hm] <;> simp
    · simp [List.mem_cons_of_mem, h]

theorem foldl_min_le (ys : List Rat) : ∀ y : Rat, ∀ t ∈ y :: ys, ys.foldl min y ≤ t := by
  induction ys with
  | nil =>
    intro y t ht
    rcases List.mem_singleton.mp ht with rfl
    exact le_refl _
  | cons z zs ih =>
    intro y t ht
    simp only [List.foldl_cons]
    have hle : zs.foldl min (min y z) ≤ min y z := ih (min y z) _ (List.mem_cons_self _ _)
    rcases List.mem_cons.mp ht with rfl | ht
    · exact hle.trans (min_le_left _ _)
    · rcases List.mem_cons.mp ht with rfl | ht
      · exact hle.trans (min_le_right _ _)
      · exact ih (min y z) t (List.mem_cons_of_mem _ ht)

/-- Destructs `calcPerf df laps = Except.ok pm` into the fields the claims
need. -/
theorem calcPerf_ok (df : DataFrame) (laps : List LapAnalysis)
    (pm : PerformanceMetrics) (h : calcPerf df laps = Except.ok pm) :
    pm.fastest_lap =
      (match posLapTimes laps with | [] => 0 | y :: ys => ys.foldl min y) ∧
    pm.average_lap =
      (match posLapTimes laps with
       | [] => (0 : Rat)
       | _ :: _ => (posLapTimes laps).sum / ((posLapTimes laps).length : Rat)) ∧
    ((df.hasThrottle && df.hasBrake) = false →
      pm.braking_points = 0 ∧ pm.acceleration_zones = 0) := by
  unfold calcPerf at h
  rcases hm : maxRpmOf df with e | mr <;> rw [hm] at h
  · cases h
  · rw [Except.ok.injEq] at h
    subst h
    refine ⟨rfl, rfl, fun hz => ?_⟩
    simp [hz]

/-- C5: for every (rows, laps) input on which `_calculate_performance_metrics`
returns, `fastest_lap` is the minimum lap time over laps with positive lap
time (an element of that set and a lower bound for it) and `average_lap` is
the mean over the same set; both are 0 when no lap has positive lap time. -/
theorem calcPerf_lap_metrics (df : DataFrame) (laps : List LapAnalysis)
    (pm : PerformanceMetrics) (h : calcPerf df laps = Except.ok pm) :
    (posLapTimes laps = [] → pm.fastest_lap = 0 ∧ pm.average_lap = 0) ∧
    (posLapTimes laps ≠ [] →
      pm.fastest_lap ∈ posLapTimes laps ∧
      (∀ t ∈ posLapTimes laps, pm.fastest_lap ≤ t) ∧
      pm.average_lap = (posLapTimes laps).sum / ((posLapTimes laps).length : Rat)) := by
  obtain ⟨h1, h2, _⟩ := calcPerf_ok df laps pm h
  constructor
  · intro hnil
    rw [h1, h2, hnil]
    exact ⟨rfl, rfl⟩
  · intro hne
    rcases hx : posLapTimes laps with _ | ⟨y, ys⟩
    · exact absurd hx hne
    · rw [h1, h2, hx]
      refine ⟨?_, ?_, ?_⟩
      · exact foldl_min_mem ys y
      · exact foldl_min_le ys y
      · simp [hx]

theorem calcPerf_lap_metrics_witness :
    (posLapTimes lapsC5 = [] → pmC5.fastest_lap = 0 ∧ pmC5.average_lap = 0) ∧
    (posLapTimes lapsC5 ≠ [] →
      pmC5.fastest_lap ∈ posLapTimes lapsC5 ∧
      (∀ t ∈ posLapTimes lapsC5, pmC5.fastest_lap ≤ t) ∧
      pmC5.average_lap = (posLapTimes lapsC5).sum / ((posLapTimes lapsC5).length : Rat)) :=
  calcPerf_lap_metrics {} lapsC5 pmC5 (by with_unfolding_all decide)

/-- C10: whenever the throttle column or the brake column is absent, the
70th-percentile threshold counting is skipped and both `braking_points` and
`acceleration_zones` are 0. -/
theorem calcPerf_zones_missing_column (df : DataFrame) (laps : List LapAnalysis)
    (pm : PerformanceMetrics) (h : calcPerf df laps = Except.ok pm)
    (hmiss : df.hasThrottle = false ∨ df.hasBrake = false) :
    pm.braking_points = 0 ∧ pm.acceleration_zones = 0 :=
  (calcPerf_ok df laps pm h).2.2 (by rcases hmiss with h1 | h1 <;> simp [h1])

theorem calcPerf_zones_missing_column_witness :
    pmBrakeOnly.braking_points = 0 ∧ pmBrakeOnly.acceleration_zones = 0 :=
  calcPerf_zones_missing_column dfBrakeOnly [] pmBrakeOnly
    (by with_unfolding_all decide) (Or.inl rfl)

theorem foldl_preserve {α β : Type} (P : β → Prop) (f : β → α → β)
    (hf : ∀ b a, P b → P (f b a)) :
    ∀ (l : List α) (b : β), P b → P (l.foldl f b) := by
  intro l
  induction l with
  | nil => intro b h; exact h
  | cons x xs ih => intro b h; exact ih _ (hf _ _ h)

theorem keys_dictInsert_nodup {α : Type} (d : List (String × α)) (k : String) (v : α)
    (h : (d.map Prod.fst).Nodup) : ((dictInsert d k v).map Prod.fst).Nodup := by
  unfold dictInsert
  by_cases hany : d.any (fun p => p.1 == k) = true
  · rw [if_pos hany]
    have hmap : (d.map (fun p => if p.1 == k then (k, v) else p)).map Prod.fst
        = d.map Prod.fst := by
      rw [List.map_map]
      refine List.map_congr_left (fun p _ => ?_)
      by_cases hp : (p.1 == k) = true
      · simp only [Function.comp, hp, if_true]
        exact (eq_of_beq hp).symm
      · simp [Function.comp, hp]
    rw [hmap]
    exact h
  · rw [if_neg hany]
    rw [List.map_append]
    refine List.Nodup.append h (by simp) ?_
    intro a ha hb
    simp only [List.map_cons, List.map_nil, List.mem_singleton] at hb
    subst hb
    rcases List.mem_map.mp ha with ⟨p, hp, hk⟩
    refine hany (List.any_eq_true.mpr ⟨p, hp, ?_⟩)
    exact beq_iff_eq.mpr hk

theorem lapTimesDict_keys_nodup (sessions : List SessionData) :
    ((lapTimesDict sessions).map Prod.fst).Nodup := by
  unfold lapTimesDict
  refine foldl_preserve
    (fun d : List (String × Val) => (d.map Prod.fst).Nodup) _ ?_ sessions [] ?_
  · intro d s h
    split
    · exact h
    · exact keys_dictInsert_nodup _ _ _ h
  · exact List.nodup_nil

theorem speedDict_keys_nodup (sessions : List SessionData) :
    ((speedDict sessions).map Prod.fst).Nodup := by
  unfold speedDict
  refine foldl_preserve
    (fun d : List (String × Val) => (d.map Prod.fst).Nodup) _ ?_ sessions [] ?_
  · intro d s h
    exact keys_dictInsert_nodup _ _ _ h
  · exact List.nodup_nil

theorem dGet_eq_of_mem {α : Type} [Inhabited α] :
    ∀ (d : List (String × α)) (q : String × α),
      (d.map Prod.fst).Nodup → q ∈ d → dGet d q.1 = q.2 := by
  intro d
  induction d with
  | nil => intro q _ hq; cases hq
  | cons p ds ih =>
    intro q hnd hq
    rw [List.map_cons, List.nodup_cons] at hnd
    rcases List.mem_cons.mp hq with rfl | hq
    · unfold dGet
      simp [List.find?_cons]
    · have hne : (p.1 == q.1) = false := by
        refine beq_eq_false_iff_ne.mpr (fun he => ?_)
        exact hnd.1 (he ▸ List.mem_map.mpr ⟨q, hq, rfl⟩)
      unfold dGet
      simp only [List.find?_cons, hne]
      exact ih q hnd.2 hq

theorem lapTimesDict_eq_nil_aux :
    ∀ (ss : List SessionData) (d : List (String × Val)),
      (∀ s ∈ ss, s.lap_analysis = []) →
      ss.foldl (fun d s =>
        if s.lap_analysis.isEmpty then d
        else dictInsert d s.filename (pyMin (s.lap_analysis.map (·.lap_time)))) d = d := by
  intro ss
  induction ss with
  | nil => intro d _; rfl
  | cons s ss ih =>
    intro d h
    have hs : s.lap_analysis = [] := h s (List.mem_cons_self _ _)
    simp only [List.foldl_cons, hs, List.isEmpty_nil, if_true]
    exact ih d (fun s hs => h s (List.mem_cons_of_mem _ hs))

theorem lapTimesDict_eq_nil (sessions : List SessionData)
    (h : ∀ s ∈ sessions, s.lap_analysis = []) : lapTimesDict sessions = [] :=
  lapTimesDict_eq_nil_aux sessions [] h

theorem pyMinPair_mem : ∀ (ps : List (String × Val)) (p : String × Val),
    pyMinPair p ps ∈ p :: ps := by
  intro ps
  induction ps with
  | nil => intro p; simp [pyMinPair]
  | cons q qs ih =>
    intro p
    unfold pyMinPair at ih ⊢
    simp only [List.foldl_cons]
    rcases List.mem_cons.mp (ih (if ltVal q.2 p.2 then q else p)) with h | h
    · rw [h]
      by_cases hlt : ltVal q.2 p.2 = true <;> simp [hlt]
    · simp [List.mem_cons_of_mem, h]

theorem pyMaxPair_mem : ∀ (ps : List (String × Val)) (p : String × Val),
    pyMaxPair p ps ∈ p :: ps := by
  intro ps
  induction ps with
  | nil => intro p; simp [pyMaxPair]
  | cons q qs ih =>
    intro p
    unfold pyMaxPair at ih ⊢
    simp only [List.foldl_cons]
    rcases List.mem_cons.mp (ih (if gtVal q.2 p.2 then q else p)) with h | h
    · rw [h]
      by_cases hlt : gtVal q.2 p.2 = true <;> simp [hlt]
    · simp [List.mem_cons_of_mem, h]

theorem pyMinPair_le : ∀ (ps : List (String × Val)) (p : String × Val),
    (∀ q ∈ p :: ps, q.2.isSome = true) →
    ∃ bv, (pyMinPair p ps).2 = some bv ∧
      ∀ q ∈ p :: ps, ∀ v, q.2 = some v → bv ≤ v := by
  intro ps
  induction ps with
  | nil =>
    intro p hs
    rcases ho : p.2 with _ | pv
    · exact absurd (ho ▸ hs p (by simp)) (by simp)
    · refine ⟨pv, by simp [pyMinPair, ho], ?_⟩
      intro q hq v hv
      rcases List.mem_singleton.mp hq with rfl
      rw [ho] at hv
      cases hv
      exact le_refl _
  | cons q0 qs ih =>
    intro p hs
    unfold pyMinPair at ih ⊢
    simp only [List.foldl_cons]
    have hs' : ∀ q ∈ (if ltVal q0.2 p.2 then q0 else p) :: qs, q.2.isSome = true := by
      intro q hq
      rcases List.mem_cons.mp hq with rfl | hq
      · split
        · exact hs q0 (by simp)
        · exact hs p (by simp)
      · exact hs q (by simp [hq])
    obtain ⟨bv, hbv, hle⟩ := ih _ hs'
    refine ⟨bv, hbv, ?_⟩
    obtain ⟨a, ha⟩ := Option.isSome_iff_exists.mp (hs p (by simp))
    obtain ⟨b, hb⟩ := Option.isSome_iff_exists.mp (hs q0 (by simp))
    have hpk : ∀ v, (if ltVal q0.2 p.2 then q0 else p).2 = some v → bv ≤ v :=
      fun v hv => hle _ (by simp) v hv
    intro q hq v hv
    by_cases hlt : ltVal q0.2 p.2 = true
    · have hba : b < a := by
        rw [ha, hb] at hlt
        simpa [ltVal] using hlt
      have hbvb : bv ≤ b := hpk b (by rw [if_pos hlt]; exact hb)
      rcases List.mem_cons.mp hq with rfl | hq
      · rw [ha] at hv; cases hv; exact hbvb.trans hba.le
      · rcases List.mem_cons.mp hq with rfl | hq
        · rw [hb] at hv; cases hv; exact hbvb
        · exact hle q (by simp [hq]) v hv
    · have hab : a ≤ b := by
        rw [ha, hb] at hlt
        simpa [ltVal] using hlt
      have hbva : bv ≤ a := hpk a (by rw [if_neg hlt]; exact ha)
      rcases List.mem_cons.mp hq with rfl | hq
      · rw [ha] at hv; cases hv; exact hbva
      · rcases List.mem_cons.mp hq with rfl | hq
        · rw [hb] at hv; cases hv; exact hbva.trans hab
        · exact hle q (by simp [hq]) v hv

theorem pyMaxPair_ge : ∀ (ps : List (String × Val)) (p : String × Val),
    (∀ q ∈ p :: ps, q.2.isSome = true) →
    ∃ wv, (pyMaxPair p ps).2 = some wv ∧
      ∀ q ∈ p :: ps, ∀ v, q.2 = some v → v ≤ wv := by
  intro ps
  induction ps with
  | nil =>
    intro p hs
    rcases ho : p.2 with _ | pv
    · exact absurd (ho ▸ hs p (by simp)) (by simp)
    · refine ⟨pv, by simp [pyMaxPair, ho], ?_⟩
      intro q hq v hv
      rcases List.mem_singleton.mp hq with rfl
      rw [ho] at hv
      cases hv
      exact le_refl _
  | cons q0 qs ih =>
    intro p hs
    unfold pyMaxPair at ih ⊢
    simp only [List.foldl_cons]
    have hs' : ∀ q ∈ (if gtVal q0.2 p.2 then q0 else p) :: qs, q.2.isSome = true := by
      intro q hq
      rcases List.mem_cons.mp hq with rfl | hq
      · split
        · exact hs q0 (by simp)
        · exact hs p (by simp)
      · exact hs q (by simp [hq])
    obtain ⟨wv, hwv, hge⟩ := ih _ hs'
    refine ⟨wv, hwv, ?_⟩
    obtain ⟨a, ha⟩ := Option.isSome_iff_exists.mp (hs p (by simp))
    obtain ⟨b, hb⟩ := Option.isSome_iff_exists.mp (hs q0 (by simp))
    have hpk : ∀ v, (if gtVal q0.2 p.2 then q0 else p).2 = some v → v ≤ wv :=
      fun v hv => hge _ (by simp) v hv
    intro q hq v hv
    by_cases hgt : gtVal q0.2 p.2 = true
    · have hab : a < b := by
        rw [ha, hb] at hgt
        simpa [gtVal] using hgt
      have hbwv : b ≤ wv := hpk b (by rw [if_pos hgt]; exact hb)
      rcases List.mem_cons.mp hq with rfl | hq
      · rw [ha] at hv; cases hv; exact hab.le.trans hbwv
      · rcases List.mem_cons.mp hq with rfl | hq
        · rw [hb] at hv; cases hv; exact hbwv
        · exact hge q (by simp [hq]) v hv
    · have hba : b ≤ a := by
        rw [ha, hb] at hgt
        simpa [gtVal] using hgt
      have hawv : a ≤ wv := hpk a (by rw [if_neg hgt]; exact ha)
      rcases List.mem_cons.mp hq with rfl | hq
      · rw [ha] at hv; cases hv; exact hawv
      · rcases List.mem_cons.mp hq with rfl | hq
        · rw [hb] at hv; cases hv; exact hba.trans hawv
        · exact hge q (by simp [hq]) v hv

theorem minKey_spec (d : List (String × Val)) (hne : d ≠ [])
    (hsome : ∀ q ∈ d, q.2.isSome = true) (hnd : (d.map Prod.fst).Nodup) :
    ∃ bv, dGet d (minKeyByVal d) = some bv ∧ (minKeyByVal d, some bv) ∈ d ∧
      ∀ q ∈ d, ∀ v, q.2 = some v → bv ≤ v := by
  rcases d with _ | ⟨p, ps⟩
  · exact absurd rfl hne
  obtain ⟨bv, hbv, hle⟩ := pyMinPair_le ps p hsome
  have hmem := pyMinPair_mem ps p
  have hpair : (minKeyByVal (p :: ps), some bv) = pyMinPair p ps := by
    rw [minKeyByVal, ← hbv]
  refine ⟨bv, ?_, hpair ▸ hmem, hle⟩
  have := dGet_eq_of_mem (p :: ps) (pyMinPair p ps) hnd hmem
  rw [minKeyByVal, this, hbv]

theorem maxKey_spec (d : List (String × Val)) (hne : d ≠ [])
    (hsome : ∀ q ∈ d, q.2.isSome = true) (hnd : (d.map Prod.fst).Nodup) :
    ∃ wv, dGet d (maxKeyByVal d) = some wv ∧ (maxKeyByVal d, some wv) ∈ d ∧
      ∀ q ∈ d, ∀ v, q.2 = some v → v ≤ wv := by
  rcases d with _ | ⟨p, ps⟩
  · exact absurd rfl hne
  obtain ⟨wv, hwv, hge⟩ := pyMaxPair_ge ps p hsome
  have hmem := pyMaxPair_mem ps p
  have hpair : (maxKeyByVal (p :: ps), some wv) = pyMaxPair p ps := by
    rw [maxKeyByVal, ← hwv]
  refine ⟨wv, ?_, hpair ▸ hmem, hge⟩
  have := dGet_eq_of_mem (p :: ps) (pyMaxPair p ps) hnd hmem
  rw [maxKeyByVal, this, hwv]

theorem speedMetricE_param (speeds : List (String × Val)) (ms : List ComparisonMetrics)
    (h : speedMetricE speeds = Except.ok ms) :
    ∀ m ∈ ms, m.parameter = "Maximum Speed" := by
  unfold speedMetricE at h
  split at h
  · rw [Except.ok.injEq] at h
    subst h
    intro m hm
    cases hm
  · split at h
    · cases h
    · rw [Except.ok.injEq] at h
      subst h
      intro m hm
      rcases List.mem_singleton.mp hm with rfl
      rfl

theorem lapMetricE_ok_nonempty (d : List (String × Val)) (ms : List ComparisonMetrics)
    (hne : d ≠ []) (h : lapMetricE d = Except.ok ms) :
    ∃ imp, pyDiv (pySub (dGet d (maxKeyByVal d)) (dGet d (minKeyByVal d)))
        (dGet d (maxKeyByVal d)) = Except.ok imp ∧
      ms = [{ parameter := "Fastest Lap Time"
              session_values := d
              best_performance := minKeyByVal d
              worst_performance := maxKeyByVal d
              improvement_potential := pyMulC imp 100 }] := by
  unfold lapMetricE at h
  rw [if_neg (by simpa using hne)] at h
  rcases hdiv : pyDiv (pySub (dGet d (maxKeyByVal d)) (dGet d (minKeyByVal d)))
      (dGet d (maxKeyByVal d)) with e | imp <;> rw [hdiv] at h
  · cases h
  · rw [Except.ok.injEq] at h
    exact ⟨imp, rfl, h.symm⟩

/-- C3: evidence that the claim's safety property fails on the code.
`compare_sessions` raises `ZeroDivisionError` (modelled as `Except.error`)
both when every compared session's recorded maximum speed is 0 (two sessions
with no speed column) and when every per-session fastest-lap value is 0
(laps whose lap times are all the 0.0 sentinel). -/
theorem compareSessions_div_by_zero :
    compareSessions sessAllZeroSpeed = Except.error "float division by zero" ∧
    compareSessions sessZeroLap = Except.error "float division by zero" := by
  with_unfolding_all decide

/-- C6 counterexample: on two sessions with no lap data where one session has
no speed data (recorded max_speed 0), `compare_sessions` raises
(ZeroDivisionError in the Maximum Speed block) instead of returning an output
that merely omits the missing metrics, contradicting the claim that metrics
lacking data are silently omitted rather than an error. -/
theorem compareSessions_raises_not_omits :
    compareSessions sessNoLapZeroSpeed = Except.error "float division by zero" := by
  with_unfolding_all decide

/-- C6 amended: whenever `compare_sessions` returns at all and no compared
session has lap data, the "Fastest Lap Time" metric is omitted from the
output and `fastest_overall` is the "Unknown" sentinel.  (The Maximum Speed
metric, by contrast, is recorded for every session unconditionally, and the
function raises ZeroDivisionError — rather than omitting the metric — when
the minimum recorded max_speed is zero.) -/
theorem compareSessions_no_lap_data (sessions : List SessionData)
    (out : CompareOutput) (h : compareSessions sessions = Except.ok out)
    (hnolap : ∀ s ∈ sessions, s.lap_analysis = []) :
    (∀ m ∈ out.comparison_metrics, m.parameter ≠ "Fastest Lap Time") ∧
    out.fastest_overall = "Unknown" := by
  have hnil := lapTimesDict_eq_nil sessions hnolap
  unfold compareSessions at h
  rw [hnil] at h
  have h1 : lapMetricE [] = Except.ok [] := rfl
  rw [h1] at h
  rcases h2 : speedMetricE (speedDict sessions) with e | m2 <;> rw [h2] at h
  · cases h
  · rw [Except.ok.injEq] at h
    subst h
    constructor
    · intro m hm
      rw [List.nil_append] at hm
      rw [speedMetricE_param (speedDict sessions) m2 h2 m hm]
      decide
    · rfl

/-- C6 witness: two lap-less sessions with positive speeds 50 and 60. -/
theorem compareSessions_no_lap_data_witness :
    (∀ m ∈ outC6.comparison_metrics, m.parameter ≠ "Fastest Lap Time") ∧
    outC6.fastest_overall = "Unknown" :=
  compareSessions_no_lap_data sessNoLapPosSpeed outC6
    (by with_unfolding_all decide) (by decide)

/-- C4: whenever `compare_sessions` returns and some session has lap data,
the first comparison metric is the "Fastest Lap Time" metric whose
`best_performance` holds the minimum per-session fastest-lap value, whose
`worst_performance` holds the maximum, and whose `improvement_potential` is
(worst − best) / worst × 100; in particular (second conjunct) on two sessions
with fastest laps 90.0 and 100.0 it computes improvement 10.0 with the 90.0
session best. -/
theorem compareSessions_fastest_lap_metric (sessions : List SessionData)
    (out : CompareOutput) (h : compareSessions sessions = Except.ok out)
    (hne : lapTimesDict sessions ≠ [])
    (hsome : ∀ p ∈ lapTimesDict sessions, p.2.isSome = true) :
    (∃ bv wv,
      out.comparison_metrics.head? = some
        { parameter := "Fastest Lap Time"
          session_values := lapTimesDict sessions
          best_performance := minKeyByVal (lapTimesDict sessions)
          worst_performance := maxKeyByVal (lapTimesDict sessions)
          improvement_potential := some ((wv - bv) / wv * 100) } ∧
      (minKeyByVal (lapTimesDict sessions), some bv) ∈ lapTimesDict sessions ∧
      (maxKeyByVal (lapTimesDict sessions), some wv) ∈ lapTimesDict sessions ∧
      (∀ p ∈ lapTimesDict sessions, ∀ v, p.2 = some v → bv ≤ v ∧ v ≤ wv) ∧
      wv ≠ 0) ∧
    (compareSessions sessC4 = Except.ok outC4 ∧
     outC4.comparison_metrics.head? = some fltC4 ∧
     fltC4.improvement_potential = some 10 ∧
     fltC4.best_performance = "A") := by
  refine ⟨?_, by with_unfolding_all decide, rfl, rfl, rfl⟩
  unfold compareSessions at h
  rcases h1 : lapMetricE (lapTimesDict sessions) with e | m1 <;> rw [h1] at h
  · cases h
  rcases h2 : speedMetricE (speedDict sessions) with e | m2 <;> rw [h2] at h
  · cases h
  rw [Except.ok.injEq] at h
  subst h
  obtain ⟨imp, hdiv, hm1⟩ := lapMetricE_ok_nonempty _ m1 hne h1
  obtain ⟨bv, hbget, hbmem, hble⟩ :=
    minKey_spec _ hne hsome (lapTimesDict_keys_nodup sessions)
  obtain ⟨wv, hwget, hwmem, hwge⟩ :=
    maxKey_spec _ hne hsome (lapTimesDict_keys_nodup sessions)
  rw [hbget, hwget] at hdiv
  simp only [pySub, pyDiv] at hdiv
  by_cases hwz : wv = 0
  · rw [if_pos hwz] at hdiv
    cases hdiv
  · rw [if_neg hwz] at hdiv
    rw [Except.ok.injEq] at hdiv
    refine ⟨bv, wv, ?_, hbmem, hwmem,
      fun p hp v hv => ⟨hble p hp v hv, hwge p hp v hv⟩, hwz⟩
    show (m1 ++ m2).head? = _
    rw [hm1, ← hdiv]
    rfl

/-- C4 witness: the general statement instantiated on two sessions with
fastest laps 90.0 and 100.0 (sessions "A" and "B"). -/
theorem compareSessions_fastest_lap_metric_witness :
    (∃ bv wv,
      outC4.comparison_metrics.head? = some
        { parameter := "Fastest Lap Time"
          session_values := lapTimesDict sessC4
          best_performance := minKeyByVal (lapTimesDict sessC4)
          worst_performance := maxKeyByVal (lapTimesDict sessC4)
          improvement_potential := some ((wv - bv) / wv * 100) } ∧
      (minKeyByVal (lapTimesDict sessC4), some bv) ∈ lapTimesDict sessC4 ∧
      (maxKeyByVal (lapTimesDict sessC4), some wv) ∈ lapTimesDict sessC4 ∧
      (∀ p ∈ lapTimesDict sessC4, ∀ v, p.2 = some v → bv ≤ v ∧ v ≤ wv) ∧
      wv ≠ 0) ∧
    (compareSessions sessC4 = Except.ok outC4 ∧
     outC4.comparison_metrics.head? = some fltC4 ∧
     fltC4.improvement_potential = some 10 ∧
     fltC4.best_performance = "A") :=
  compareSessions_fastest_lap_metric sessC4 outC4
    (by with_unfolding_all decide) (by with_unfolding_all decide)
    (by with_unfolding_all decide)

theorem findColumnByAliases_mem {columns aliases : List String} {c : String}
    (h : findColumnByAliases columns aliases = some c) : c ∈ columns ∧ c ∈ aliases := by
  unfold findColumnByAliases at h
  refine ⟨List.mem_of_find?_eq_some h, ?_⟩
  have hp := List.find?_some h
  simpa [List.contains, List.elem_iff] using hp

theorem columnMappingAux (columns : List String) :
    ∀ (table : List (String × List String)) (m : List (String × String)),
      (∀ p ∈ table, ∀ q ∈ m, q.1 ∉ p.2) →
      table.Pairwise (fun p1 p2 => ∀ x ∈ p1.2, x ∉ p2.2) →
      table.foldl (fun m p =>
        match findColumnByAliases columns p.2 with
        | some c => dictInsert m c p.1
        | none => m) m
      = m ++ table.filterMap (aliasEntry columns) := by
  intro table
  induction table with
  | nil => intro m _ _; simp
  | cons p ps ih =>
    intro m hdisj hpw
    rw [List.foldl_cons, List.filterMap_cons]
    rcases List.pairwise_cons.mp hpw with ⟨hp, hpw2⟩
    cases hfind : findColumnByAliases columns p.2 with
    | none =>
      simp only [hfind, aliasEntry, Option.map_none']
      exact ih m (fun a ha q hq => hdisj a (List.mem_cons_of_mem _ ha) q hq) hpw2
    | some c =>
      have hc : c ∈ columns ∧ c ∈ p.2 := findColumnByAliases_mem hfind
      have hnotin : (m.any (fun q => q.1 == c)) ≠ true := by
        intro hany
        rcases List.any_eq_true.mp hany with ⟨q, hq, hbeq⟩
        exact hdisj p (List.mem_cons_self _ _) q hq ((eq_of_beq hbeq) ▸ hc.2)
      have hins : dictInsert m c p.1 = m ++ [(c, p.1)] := by
        unfold dictInsert
        rw [if_neg hnotin]
      simp only [hfind, hins]
      rw [ih (m ++ [(c, p.1)]) ?_ hpw2]
      · simp [aliasEntry, hfind]
      · intro a ha q hq
        rcases List.mem_append.mp hq with hq | hq
        · exact hdisj a (List.mem_cons_of_mem _ ha) q hq
        · rcases List.mem_singleton.mp hq with rfl
          exact hp a ha c hc.2

/-- The alias lists of distinct canonical names share no spelling. -/
theorem aliasListsDisjoint :
    parameterAliases.Pairwise (fun p1 p2 => ∀ x ∈ p1.2, x ∉ p2.2) := by
  with_unfolding_all decide

/-- Canonical names are pairwise distinct in the alias table. -/
theorem aliasNamesPairwiseNe :
    parameterAliases.Pairwise (fun p1 p2 => p1.1 ≠ p2.1) := by
  with_unfolding_all decide

/-- The rename mapping is exactly one entry per alias entry whose list
matches some column: `(first matching column, canonical name)`. -/
theorem columnMapping_eq (columns : List String) :
    columnMapping columns = parameterAliases.filterMap (aliasEntry columns) := by
  unfold columnMapping
  rw [columnMappingAux columns parameterAliases [] (by intro p _ q hq; cases hq)
    aliasListsDisjoint]
  rfl

theorem pairwise_filterMap_of_pairwise {α β : Type} (f : α → Option β)
    (R : α → α → Prop) (S : β → β → Prop)
    (hf : ∀ a b, R a b → ∀ c, f a = some c → ∀ d, f b = some d → S c d) :
    ∀ l : List α, l.Pairwise R → (l.filterMap f).Pairwise S := by
  intro l
  induction l with
  | nil => intro _; simp
  | cons a l ih =>
    intro hpw
    rcases List.pairwise_cons.mp hpw with ⟨ha, hpw2⟩
    rw [List.filterMap_cons]
    cases hfa : f a with
    | none => exact ih hpw2
    | some c =>
      rw [List.pairwise_cons]
      refine ⟨?_, ih hpw2⟩
      intro d hd
      rcases List.mem_filterMap.mp hd with ⟨b, hb, hfb⟩
      exact hf a b (ha b hb) c hfa d hfb

theorem mem_columnMapping {columns : List String} {q : String × String}
    (h : q ∈ columnMapping columns) :
    ∃ al, (q.2, al) ∈ parameterAliases ∧
      findColumnByAliases columns al = some q.1 := by
  rw [columnMapping_eq] at h
  rcases List.mem_filterMap.mp h with ⟨p, hp, hent⟩
  unfold aliasEntry at hent
  rcases hfind : findColumnByAliases columns p.2 with _ | c
  · rw [hfind] at hent; cases hent
  · rw [hfind] at hent
    rw [Option.map_some'] at hent
    cases hent
    exact ⟨p.2, hp, hfind⟩

theorem columnMapping_keys_ne (columns : List String) :
    (columnMapping columns).Pairwise (fun q1 q2 => q1.1 ≠ q2.1) := by
  rw [columnMapping_eq]
  refine pairwise_filterMap_of_pairwise _ _ _ ?_ parameterAliases aliasListsDisjoint
  intro a b hab c hc d hd
  unfold aliasEntry at hc hd
  rcases hfa : findColumnByAliases columns a.2 with _ | ca
  · rw [hfa] at hc; cases hc
  rcases hfb : findColumnByAliases columns b.2 with _ | cb
  · rw [hfb] at hd; cases hd
  rw [hfa, Option.map_some'] at hc
  rw [hfb, Option.map_some'] at hd
  cases hc
  cases hd
  intro he
  simp only at he
  exact hab ca (findColumnByAliases_mem hfa).2 (he ▸ (findColumnByAliases_mem hfb).2)

theorem columnMapping_vals_ne (columns : List String) :
    (columnMapping columns).Pairwise (fun q1 q2 => q1.2 ≠ q2.2) := by
  rw [columnMapping_eq]
  refine pairwise_filterMap_of_pairwise _ _ _ ?_ parameterAliases aliasNamesPairwiseNe
  intro a b hab c hc d hd
  unfold aliasEntry at hc hd
  rcases hfa : findColumnByAliases columns a.2 with _ | ca
  · rw [hfa] at hc; cases hc
  rcases hfb : findColumnByAliases columns b.2 with _ | cb
  · rw [hfb] at hd; cases hd
  rw [hfa, Option.map_some'] at hc
  rw [hfb, Option.map_some'] at hd
  cases hc
  cases hd
  simpa using hab

theorem columnMapping_keys_nodup (columns : List String) :
    ((columnMapping columns).map Prod.fst).Nodup :=
  List.pairwise_map.mpr (columnMapping_keys_ne columns)

theorem renameHeader_eq_of_mem :
    ∀ (m : List (String × String)) (q : String × String),
      (m.map Prod.fst).Nodup → q ∈ m → renameHeader m q.1 = q.2 := by
  intro m
  induction m with
  | nil => intro q _ hq; cases hq
  | cons p ds ih =>
    intro q hnd hq
    rw [List.map_cons, List.nodup_cons] at hnd
    rcases List.mem_cons.mp hq with rfl | hq
    · unfold renameHeader
      simp [List.find?_cons]
    · have hne : (p.1 == q.1) = false := by
        refine beq_eq_false_iff_ne.mpr (fun he => ?_)
        exact hnd.1 (he ▸ List.mem_map.mpr ⟨q, hq, rfl⟩)
      unfold renameHeader
      simp only [List.find?_cons, hne]
      exact ih q hnd.2 hq

theorem renameHeader_eq_self (m : List (String × String)) (h : String)
    (hk : ∀ q ∈ m, q.1 ≠ h) : renameHeader m h = h := by
  unfold renameHeader
  rw [List.find?_eq_none.mpr (fun q hq => by simp [hk q hq])]

theorem renameHeader_key_mem (m : List (String × String)) (h c : String)
    (hren : renameHeader m h = c) (hne : c ≠ h) : (h, c) ∈ m := by
  unfold renameHeader at hren
  rcases hf : m.find? (fun p => p.1 == h) with _ | q
  · rw [hf] at hren
    exact absurd hren.symm hne
  · rw [hf] at hren
    have hq := List.mem_of_find?_eq_some hf
    have hqb := List.find?_some hf
    have hq1 : q.1 = h := eq_of_beq (by simpa using hqb)
    have : q = (h, c) := by
      rcases q with ⟨q1, q2⟩
      simp only at hq1 hren
      rw [hq1, hren]
    exact this ▸ hq

theorem pairwise_vals_unique :
    ∀ (m : List (String × String)), m.Pairwise (fun q1 q2 => q1.2 ≠ q2.2) →
      ∀ h1 h2 c, (h1, c) ∈ m → (h2, c) ∈ m → h1 = h2 := by
  intro m
  induction m with
  | nil => intro _ h1 h2 c hm; cases hm
  | cons p ds ih =>
    intro hpw h1 h2 c hm1 hm2
    rcases List.pairwise_cons.mp hpw with ⟨hp, hpw2⟩
    rcases List.mem_cons.mp hm1 with he1 | hm1 <;>
      rcases List.mem_cons.mp hm2 with he2 | hm2
    · rw [← he2] at he1
      exact congrArg Prod.fst he1
    · exact absurd (congrArg Prod.snd he1).symm (hp (h2, c) hm2)
    · exact absurd (congrArg Prod.snd he2).symm (hp (h1, c) hm1)
    · exact ih hpw2 h1 h2 c hm1 hm2

theorem countP_le_one_of_unique {α : Type} (p : α → Bool) :
    ∀ (l : List α), l.Nodup → (∀ a b, p a = true → p b = true → a = b) →
      l.countP p ≤ 1 := by
  intro l
  induction l with
  | nil => intro _ _; simp [List.countP_nil]
  | cons x xs ih =>
    intro hnd hu
    rcases List.nodup_cons.mp hnd with ⟨hx, hnd2⟩
    rw [List.countP_cons]
    by_cases hpx : p x = true
    · have h0 : xs.countP p = 0 := by
        rw [List.countP_eq_zero]
        intro a ha hpa
        exact hx ((hu a x hpa hpx) ▸ ha)
      rw [h0, hpx]
      simp
    · rw [if_neg hpx]
      simpa using ih hnd2 hu

theorem mem_columnMapping_of_find {columns : List String} {c : String}
    {al : List String} {h : String} (hca : (c, al) ∈ parameterAliases)
    (hfind : findColumnByAliases columns al = some h) :
    (h, c) ∈ columnMapping columns := by
  rw [columnMapping_eq]
  refine List.mem_filterMap.mpr ⟨(c, al), hca, ?_⟩
  simp [aliasEntry, hfind]

/-- C8: the Normalizer renames by exact-string alias membership only.
(1) any column renamed to a different name `c` has its header literally in
`c`'s alias list; (2) at most one source column is renamed to each canonical
name; (3) a header contained in no alias list passes through unchanged;
(4) the first column matching a canonical name's alias list is renamed to it;
(5) concretely, lowercase "lat" (not in the latitude list, though "LAT" is)
is NOT normalized, while exact matches "Speed" and "Track Distance" are, and
"Foo" passes through. -/
theorem normalizer_exact_match (columns : List String) (hnd : columns.Nodup) :
    (∀ h c, renameHeader (columnMapping columns) h = c → c ≠ h →
       ∃ al, (c, al) ∈ parameterAliases ∧ h ∈ al) ∧
    (∀ c : String, (columns.countP
       (fun h => renameHeader (columnMapping columns) h == c && h != c)) ≤ 1) ∧
    (∀ h, (∀ p ∈ parameterAliases, h ∉ p.2) →
       renameHeader (columnMapping columns) h = h) ∧
    (∀ c al h, (c, al) ∈ parameterAliases →
       findColumnByAliases columns al = some h →
       renameHeader (columnMapping columns) h = c) ∧
    (normalizeColumnNames ["lat", "Speed", "Track Distance", "Foo"] =
       ["lat", "speed", "distance", "Foo"]) := by
  refine ⟨?_, ?_, ?_, ?_, by with_unfolding_all decide⟩
  · intro h c hren hne
    have hmem := renameHeader_key_mem _ h c hren hne
    obtain ⟨al, hal, hfind⟩ := mem_columnMapping hmem
    exact ⟨al, hal, (findColumnByAliases_mem hfind).2⟩
  · intro c
    refine countP_le_one_of_unique _ columns hnd ?_
    intro a b ha hb
    simp only [Bool.and_eq_true, beq_iff_eq, bne_iff_ne] at ha hb
    have hma := renameHeader_key_mem _ a c ha.1 (Ne.symm ha.2)
    have hmb := renameHeader_key_mem _ b c hb.1 (Ne.symm hb.2)
    exact pairwise_vals_unique _ (columnMapping_vals_ne columns) a b c hma hmb
  · intro h hno
    refine renameHeader_eq_self _ h ?_
    intro q hq he
    obtain ⟨al, hal, hfind⟩ := mem_columnMapping hq
    exact hno (q.2, al) hal (he ▸ (findColumnByAliases_mem hfind).2)
  · intro c al h hca hfind
    exact renameHeader_eq_of_mem _ (h, c) (columnMapping_keys_nodup columns)
      (mem_columnMapping_of_find hca hfind)

/-- C8 witness: the general statement on the concrete header row
["lat", "Speed", "Track Distance", "Foo"]. -/
theorem normalizer_exact_match_witness :
    (∀ h c, renameHeader (columnMapping ["lat", "Speed", "Track Distance", "Foo"]) h = c →
       c ≠ h → ∃ al, (c, al) ∈ parameterAliases ∧ h ∈ al) ∧
    (∀ c : String, ((["lat", "Speed", "Track Distance", "Foo"] : List String).countP
       (fun h => renameHeader (columnMapping ["lat", "Speed", "Track Distance", "Foo"]) h
         == c && h != c)) ≤ 1) ∧
    (∀ h, (∀ p ∈ parameterAliases, h ∉ p.2) →
       renameHeader (columnMapping ["lat", "Speed", "Track Distance", "Foo"]) h = h) ∧
    (∀ c al h, (c, al) ∈ parameterAliases →
       findColumnByAliases ["lat", "Speed", "Track Distance", "Foo"] al = some h →
       renameHeader (columnMapping ["lat", "Speed", "Track Distance", "Foo"]) h = c) ∧
    (normalizeColumnNames ["lat", "Speed", "Track Distance", "Foo"] =
       ["lat", "speed", "distance", "Foo"]) :=
  normalizer_exact_match ["lat", "Speed", "Track Distance", "Foo"] (by decide)

theorem csvIssues_empty_table (t : RawTable) (hrows : t.rows = []) :
    0 < errorCount (csvIssues t) := by
  have hemp : tableEmpty t = true := by
    simp [tableEmpty, hrows]
  refine List.countP_pos_iff.mpr ⟨⟨"error", "File is empty or contains no data", none,
    "Ensure the CSV file contains telemetry data"⟩, ?_, rfl⟩
  unfold csvIssues emptyIssues
  rw [hemp]
  simp

/-- C9: the validator's quality ladder and validity flag.  Any error yields
"Poor"; no errors and more than 3 warnings yields "Fair"; 1-3 warnings yields
"Good"; no issues yields "Excellent"; `is_valid` holds exactly when there is
no error-severity issue; a 0-row table is invalid with quality "Poor"; a
non-empty table with a time column, no over-50%-missing column and no
duplicated time value is "Excellent". -/
theorem validator_quality (t : RawTable) :
    (0 < errorCount (csvIssues t) →
      (validateCsv t).estimated_quality = "Poor - Contains critical errors") ∧
    (errorCount (csvIssues t) = 0 → 3 < warningCount (csvIssues t) →
      (validateCsv t).estimated_quality = "Fair - Multiple warnings present") ∧
    (errorCount (csvIssues t) = 0 → 0 < warningCount (csvIssues t) →
      warningCount (csvIssues t) ≤ 3 →
      (validateCsv t).estimated_quality = "Good - Minor issues detected") ∧
    (errorCount (csvIssues t) = 0 → warningCount (csvIssues t) = 0 →
      (validateCsv t).estimated_quality = "Excellent - No issues found") ∧
    ((validateCsv t).is_valid = true ↔ errorCount (csvIssues t) = 0) ∧
    (t.rows = [] → (validateCsv t).is_valid = false ∧
      (validateCsv t).estimated_quality = "Poor - Contains critical errors") ∧
    (∀ tc, t.rows ≠ [] → t.headers ≠ [] →
      findColumnByAliases t.headers timeAliases = some tc →
      (∀ i, i < t.headers.length →
        2 * (colValues t i).countP (·.isNone) ≤ t.rows.length) →
      (colValues t ((t.headers.findIdx? (· == tc)).getD 0)).Nodup →
      (validateCsv t).estimated_quality = "Excellent - No issues found" ∧
      (validateCsv t).is_valid = true) := by
  refine ⟨?_, ?_, ?_, ?_, ?_, ?_, ?_⟩
  · intro h
    show qualityOf (csvIssues t) = _
    unfold qualityOf
    rw [if_pos h]
  · intro he hw
    show qualityOf (csvIssues t) = _
    unfold qualityOf
    rw [if_neg (by omega), if_pos hw]
  · intro he hw hw3
    show qualityOf (csvIssues t) = _
    unfold qualityOf
    rw [if_neg (by omega), if_neg (by omega), if_pos hw]
  · intro he hw
    show qualityOf (csvIssues t) = _
    unfold qualityOf
    rw [if_neg (by omega), if_neg (by omega), if_neg (by omega)]
  · show (errorCount (csvIssues t) == 0) = true ↔ _
    simp
  · intro hrows
    have h0 := csvIssues_empty_table t hrows
    constructor
    · show (errorCount (csvIssues t) == 0) = false
      simpa using Nat.pos_iff_ne_zero.mp h0
    · show qualityOf (csvIssues t) = _
      unfold qualityOf
      rw [if_pos h0]
  · intro tc hrows hheads hfind hmiss hnodup
    have hemp : tableEmpty t = false := by
      unfold tableEmpty
      rw [Bool.or_eq_false_iff]
      constructor
      · rw [List.isEmpty_eq_false]; exact hrows
      · rw [List.isEmpty_eq_false]; exact hheads
    have hnil : csvIssues t = [] := by
      unfold csvIssues
      have h1 : emptyIssues t = [] := by
        unfold emptyIssues
        rw [hemp]
        rfl
      have h2 : timeIssues t = [] := by
        unfold timeIssues
        rw [hfind]
      have h3 : missingWarnings t = [] := by
        unfold missingWarnings
        rw [hemp]
        simp only [Bool.false_eq_true, if_false]
        rw [List.filterMap_eq_nil_iff]
        intro p hp
        have hplt : p.2 < t.headers.length := by
          have := (List.of_mem_zip hp).2
          simpa [List.mem_range] using this
        have hcnt := hmiss p.2 hplt
        have hlenpos : (0 : Rat) < (t.rows.length : Rat) := by
          have : 0 < t.rows.length := List.length_pos.mpr hrows
          exact_mod_cast this
        have harith :
            ¬ (((((colValues t p.2).countP (·.isNone)) : Rat) * 100) /
              (t.rows.length : Rat) > 50) := by
          rw [not_lt, div_le_iff₀ hlenpos]
          have hn : ((colValues t p.2).countP (·.isNone)) * 100 ≤ 50 * t.rows.length := by
            calc ((colValues t p.2).countP (·.isNone)) * 100
                = 50 * (2 * (colValues t p.2).countP (·.isNone)) := by ring
              _ ≤ 50 * t.rows.length := Nat.mul_le_mul_left 50 hcnt
          exact_mod_cast hn
        rw [if_neg harith]
      have h4 : dupIssues t = [] := by
        unfold dupIssues
        rw [hemp]
        simp only [Bool.false_eq_true, if_false]
        rw [hfind]
        simp [hnodup]
      rw [h1, h2, h3, h4]
      rfl
    constructor
    · show qualityOf (csvIssues t) = _
      unfold qualityOf errorCount warningCount
      rw [hnil]
      rfl
    · show (errorCount (csvIssues t) == 0) = true
      unfold errorCount
      rw [hnil]
      rfl

/-- C9 witness: the empty-table case on a header-only table and the
"Excellent" case on a two-row table with a time column, at most 50% missing
values per column and distinct timestamps. -/
theorem validator_quality_witness :
    ((validateCsv tEmptyC9).is_valid = false ∧
     (validateCsv tEmptyC9).estimated_quality = "Poor - Contains critical errors") ∧
    ((validateCsv tGoodC9).estimated_quality = "Excellent - No issues found" ∧
     (validateCsv tGoodC9).is_valid = true) :=
  ⟨(validator_quality tEmptyC9).2.2.2.2.2.1 rfl,
   (validator_quality tGoodC9).2.2.2.2.2.2 "Time"
     (by decide) (by decide) (by decide)
     (by with_unfolding_all decide) (by with_unfolding_all decide)⟩

end F4
